import Mathlib

/-!
# A shallow embedding of the dcron-contrib redis membership driver

This file models `redisdriver.go`: a lease-based node-membership driver that
registers a self-describing key with a TTL in a shared redis store, renews it
from a background heartbeat loop, and discovers live peers by prefix scan.

The redis client is an external collaborator; its responses (success or error
of each `SetEx`/`Del`/`Scan` call) are supplied by the environment as explicit
parameters, and the store itself is modelled as an association list from keys
to value/TTL pairs.  The `context.Context` arguments of the Go methods are
modelled by an opaque `GoContext` token; the heartbeat goroutine is modelled as
a step function over a trace of the two events its `select` can observe.
-/

/-- Errors are modelled by their message strings (Go `error`s as produced by
`errors.New` or the redis client). -/
abbrev Err := String

/-- The error `Start` returns when the driver is already started:
`errors.New("this driver is started")`. -/
def alreadyStartedErr : Err := "this driver is started"

/-- One nanosecond-count per Go `time.Second`; Go `time.Duration` is a
nanosecond count, modelled here as `Nat`. -/
def timeSecond : Nat := 1000000000

/-- `redisDefaultTimeout = 5 * time.Second` from the source. -/
def redisDefaultTimeout : Nat := 5 * timeSecond

/-- An opaque model of a Go `context.Context` argument.  The driver's methods
receive one; the source ignores it everywhere except `scan`, where it only
threads it to the client. -/
structure GoContext where
  id : Nat
deriving DecidableEq

/-- The diagnostic sink.  `std` is the default `dlog.StdLogger` wrapping
`log.Default()`; `custom n` stands for any replacement logger installed via a
`LoggerOption`. -/
inductive Logger where
  | std
  | custom (id : Nat)
deriving DecidableEq

/-- The external `commons.Option` values consumed by `WithOption`: a
`TimeoutOption` carrying a duration, a `LoggerOption` carrying a logger, or an
option of any other (unknown) kind, tagged by its `OptionType` value. -/
inductive CommonsOption where
  | timeoutOpt (t : Nat)
  | loggerOpt (l : Logger)
  | unknownOpt (tag : Nat)
deriving DecidableEq

/-- The shared redis keyspace: a list of `(key, value, ttl)` entries with at
most one entry per key (maintained by `setEx`). -/
structure Store where
  entries : List (String × String × Nat)
deriving DecidableEq

/-- The store with no keys. -/
def emptyStore : Store := ⟨[]⟩

/-- Redis `SETEX key ttl value`: upsert the key with a fresh value and TTL. -/
def Store.setEx (s : Store) (key value : String) (ttl : Nat) : Store :=
  ⟨(key, value, ttl) :: s.entries.filter (fun e => e.1 != key)⟩

/-- Redis `DEL key...`: drop every listed key; deleting an absent key is not
an error. -/
def Store.del (s : Store) (keys : List String) : Store :=
  ⟨s.entries.filter (fun e => !(keys.contains e.1))⟩

/-- Look up a key, returning its value and remaining TTL if present. -/
def Store.get (s : Store) (key : String) : Option (String × Nat) :=
  (s.entries.find? (fun e => e.1 == key)).map (fun e => (e.2.1, e.2.2))

/-- The driver state of `RedisDriver`.  The Go struct additionally holds the
redis client `c` (external, modelled by environment-supplied call responses)
and the embedded `sync.Mutex` (all lifecycle transitions below are single
atomic steps of the state machine, which is what the lock enforces).  The Go
fields `runtimeCtx`/`runtimeCancel` are created together by
`context.WithCancel`, so one `Option` models the pair: `none` is the nil
handle of a never-started driver. -/
structure RedisDriver where
  serviceName : String
  nodeID : String
  timeout : Nat
  logger : Logger
  started : Bool
  runtimeCancel : Option Unit
deriving DecidableEq

/-- `NewDriver(redisClient)`: a stopped driver with the default 5-second
lease TTL and the standard logger. -/
def NewDriver : RedisDriver :=
  { serviceName := ""
    nodeID := ""
    timeout := redisDefaultTimeout
    logger := Logger.std
    started := false
    runtimeCancel := none }

/-- `WithOption`: dispatch on the option's kind; a `TimeoutOption` replaces
the lease TTL, a `LoggerOption` replaces the diagnostic sink, and any other
kind falls through the `switch` leaving the driver untouched.  The returned
error is always the zero value `nil`. -/
def RedisDriver.WithOption (rd : RedisDriver) (opt : CommonsOption) :
    RedisDriver × Option Err :=
  match opt with
  | CommonsOption.timeoutOpt t => ({ rd with timeout := t }, none)
  | CommonsOption.loggerOpt l => ({ rd with logger := l }, none)
  | CommonsOption.unknownOpt _ => (rd, none)

/-- `Init(serviceName, opts...)`: fixes the service name, derives the node
identity via the external `commons.GetNodeId` (whose result — the namespace
plus a per-process discriminator — is supplied by the environment as
`nodeId`), then applies the options in order. -/
def RedisDriver.Init (rd : RedisDriver) (serviceName nodeId : String)
    (opts : List CommonsOption) : RedisDriver :=
  opts.foldl (fun d opt => (d.WithOption opt).1)
    { rd with serviceName := serviceName, nodeID := nodeId }

/-- `NodeID()`. -/
def RedisDriver.getNodeID (rd : RedisDriver) : String := rd.nodeID

/-- Modelled from the spec at the external collaborator's interface:
`commons.GetKeyPre(serviceName)` is the service-namespace key prefix shared
by every instance of the service. -/
def getKeyPre (serviceName : String) : String := serviceName ++ ":"

/-- `registerServiceNode`: issue `SetEx(ctx, nodeID, nodeID, timeout)` against
the client.  `respErr` is the client's response to this call; on success the
store reflects the single key/value/TTL write, on failure it is unchanged. -/
def RedisDriver.registerServiceNode (rd : RedisDriver) (s : Store)
    (respErr : Option Err) : Store × Option Err :=
  match respErr with
  | some e => (s, some e)
  | none => (s.setEx rd.nodeID rd.nodeID rd.timeout, none)

/-- The result of one `Start` call: the driver after the call, the store after
the registration attempt, the returned error, whether the `go rd.heartBeat()`
statement was reached, and the diagnostics logged during the call. -/
structure StartResult where
  rd : RedisDriver
  store : Store
  err : Option Err
  heartbeatLaunched : Bool
  logs : List String
deriving DecidableEq

/-- `Start(ctx)`: under the lock, reject if already started; otherwise mint a
fresh runtime context/cancel pair, set `started`, register synchronously, and
only on success launch the heartbeat goroutine.  The `ctx` argument is unused
by the source (the runtime context stems from `context.TODO()`).  On a
registration failure the error is logged and returned; note the source does
not reset `started` on this path. -/
def RedisDriver.Start (rd : RedisDriver) (ctx : GoContext) (s : Store)
    (regErr : Option Err) : StartResult :=
  if rd.started then
    { rd := rd, store := s, err := some alreadyStartedErr,
      heartbeatLaunched := false, logs := [] }
  else
    let rd1 := { rd with runtimeCancel := some (), started := true }
    match rd1.registerServiceNode s regErr with
    | (s1, some e) =>
        { rd := rd1, store := s1, err := some e, heartbeatLaunched := false,
          logs := ["register service error=" ++ e] }
    | (s1, none) =>
        { rd := rd1, store := s1, err := none, heartbeatLaunched := true,
          logs := [] }

/-- The observable outcome of a Go call that can panic. -/
inductive GoOutcome (α : Type) where
  | ok (val : α)
  | panics
deriving DecidableEq

/-- `Stop(ctx)`: under the lock, call `rd.runtimeCancel()` and clear
`started`.  Calling a nil `context.CancelFunc` is a nil-function call and
panics; cancelling an already-cancelled context is legal and idempotent.  The
`ctx` argument is unused by the source.  The returned error is always the zero
value `nil`. -/
def RedisDriver.Stop (rd : RedisDriver) (ctx : GoContext) :
    GoOutcome (RedisDriver × Option Err) :=
  match rd.runtimeCancel with
  | none => GoOutcome.panics
  | some _ => GoOutcome.ok ({ rd with started := false }, none)

/-- The two events the heartbeat loop's `select` can observe: the renewal
ticker firing (with the client's response to the renewal `SetEx`) or the
runtime context's cancellation (with the client's response to the `Del`). -/
inductive HBEvent where
  | tick (renewErr : Option Err)
  | cancelled (delErr : Option Err)
deriving DecidableEq

/-- One redis-client call as issued by the heartbeat loop, recorded so the
loop's externally visible behaviour is a trace. -/
inductive StoreCall where
  | setExCall (key value : String) (ttl : Nat)
  | delCall (keys : List String)
deriving DecidableEq

/-- The observable state of one heartbeat goroutine: the shared store, the
diagnostics it has logged, the client calls it has issued, and whether its
`for`/`select` loop has executed `return`. -/
structure HBState where
  store : Store
  logs : List String
  calls : List StoreCall
  terminated : Bool
deriving DecidableEq

/-- The interval of the renewal ticker: `time.NewTicker(rd.timeout / 2)`
(integer division of the nanosecond duration). -/
def RedisDriver.heartBeatInterval (rd : RedisDriver) : Nat := rd.timeout / 2

/-- One iteration of `heartBeat`'s `for`/`select` loop.  A terminated loop
processes nothing.  On a tick it calls `registerServiceNode`, logging (not
returning) a failure and continuing either way.  On cancellation it issues one
`Del(ctx, nodeID, nodeID)`, logs (not returns) a failure, and returns from the
loop. -/
def RedisDriver.heartBeatStep (rd : RedisDriver) (st : HBState) (ev : HBEvent) :
    HBState :=
  if st.terminated then st
  else
    match ev with
    | HBEvent.tick renewErr =>
        let call := StoreCall.setExCall rd.nodeID rd.nodeID rd.timeout
        match rd.registerServiceNode st.store renewErr with
        | (s1, some e) =>
            { st with
              store := s1,
              calls := st.calls ++ [call],
              logs := st.logs ++ ["register service node error " ++ e] }
        | (s1, none) =>
            { st with
              store := s1,
              calls := st.calls ++ [call] }
    | HBEvent.cancelled delErr =>
        let st1 := { st with calls := st.calls ++ [StoreCall.delCall [rd.nodeID, rd.nodeID]] }
        match delErr with
        | some e =>
            { st1 with
              logs := st1.logs ++ ["unregister service node error " ++ e],
              terminated := true }
        | none =>
            { st1 with
              store := st1.store.del [rd.nodeID, rd.nodeID],
              terminated := true }

/-- Run the heartbeat loop over a trace of observed events. -/
def RedisDriver.heartBeatRun (rd : RedisDriver) (st : HBState) :
    List HBEvent → HBState
  | [] => st
  | ev :: evs => rd.heartBeatRun (rd.heartBeatStep st ev) evs

/-- The state of a go-redis `ScanIterator`: the values the underlying scan
will yield before any failure, the error (if any) the scan hits after those
values, the error the iterator has recorded so far (`cmd.Err()`), and the
current value (`Val()`). -/
structure ScanIterator where
  pending : List String
  failAfter : Option Err
  recorded : Option Err
  val : String
deriving DecidableEq

/-- go-redis `ScanIterator.Next`: instantly returns `false` when an error is
already recorded; otherwise yields the next value, or — when fetching the next
page fails — records the error and returns `false`.  Hence `Err()` is always
nil at a point where `Next` has just returned `true`. -/
def ScanIterator.next (it : ScanIterator) : ScanIterator × Bool :=
  if it.recorded.isSome then (it, false)
  else
    match it.pending with
    | v :: rest => ({ it with pending := rest, val := v }, true)
    | [] =>
        match it.failAfter with
        | some e => ({ it with recorded := some e }, false)
        | none => (it, false)

/-- The `for iter.Next(ctx)` loop of `scan`, with fuel bounding the number of
iterations (the caller passes more fuel than the iterator can ever consume, so
the fuel-exhausted branch is unreachable).  Inside the loop the source checks
`iter.Err()` and returns `nil, err` if it is non-nil — but `Next` returning
`true` guarantees it is nil, so the check never fires.  When `Next` returns
`false` the loop exits and the source returns `ret, nil` without consulting
`iter.Err()`. -/
def scanGo (fuel : Nat) (ret : List String) (it : ScanIterator) :
    List String × Option Err :=
  match fuel with
  | 0 => (ret, none)
  | fuel + 1 =>
      match it.next with
      | (it1, true) =>
          match it1.recorded with
          | some e => ([], some e)
          | none => scanGo fuel (ret ++ [it1.val]) it1
      | (_, false) => (ret, none)

/-- `scan(ctx, matchStr)`: the client's `Scan(ctx, 0, matchStr, -1)` response
is the iterator `it` supplied by the environment; the loop runs `scanGo` with
ample fuel. -/
def RedisDriver.scan (rd : RedisDriver) (ctx : GoContext) (matchStr : String)
    (it : ScanIterator) : List String × Option Err :=
  scanGo (it.pending.length + 1) [] it

/-- `GetNodes(ctx)`: scan with the match string `GetKeyPre(serviceName) + "*"`. -/
def RedisDriver.GetNodes (rd : RedisDriver) (ctx : GoContext)
    (it : ScanIterator) : List String × Option Err :=
  rd.scan ctx (getKeyPre rd.serviceName ++ "*") it

/-- A small concrete driver used by the closed witness theorems below: a fresh
driver initialised for service `svc` with derived identity `svc:node-1`. -/
def demoDriver : RedisDriver := NewDriver.Init "svc" "svc:node-1" []

/-- A concrete context token for the closed theorems. -/
def demoCtx : GoContext := ⟨0⟩

/-! ## Helper lemmas about the store and the heartbeat trace semantics -/

theorem find_filter_ne (k k2 : String) (hk : k2 ≠ k)
    (l : List (String × String × Nat)) :
    (l.filter (fun e => e.1 != k)).find? (fun e => e.1 == k2)
      = l.find? (fun e => e.1 == k2) := by
  induction l with
  | nil => rfl
  | cons a l ih =>
    by_cases ha : a.1 = k
    · have h1 : (a.1 != k) = false := by simp [ha]
      have h2 : (a.1 == k2) = false := by
        simp only [beq_eq_false_iff_ne, ne_eq, ha]
        exact fun hh => hk hh.symm
      simp [List.filter_cons, h1, List.find?_cons, h2, ih]
    · have h1 : (a.1 != k) = true := by simp [ha]
      cases hp : (a.1 == k2) with
      | true => simp [List.filter_cons, h1, List.find?_cons, hp]
      | false => simp [List.filter_cons, h1, List.find?_cons, hp, ih]

theorem Store.get_setEx_self (s : Store) (k v : String) (ttl : Nat) :
    (s.setEx k v ttl).get k = some (v, ttl) := by
  simp [Store.setEx, Store.get, List.find?_cons]

theorem Store.get_setEx_other (s : Store) (k v : String) (ttl : Nat)
    (k2 : String) (h : k2 ≠ k) : (s.setEx k v ttl).get k2 = s.get k2 := by
  have hk : (k == k2) = false := by
    simp only [beq_eq_false_iff_ne, ne_eq]
    exact fun hh => h hh.symm
  simp [Store.setEx, Store.get, List.find?_cons, hk, find_filter_ne k k2 h]

theorem heartBeatRun_append (rd : RedisDriver) (st : HBState)
    (l1 l2 : List HBEvent) :
    rd.heartBeatRun st (l1 ++ l2)
      = rd.heartBeatRun (rd.heartBeatRun st l1) l2 := by
  induction l1 generalizing st with
  | nil => rfl
  | cons ev l ih => simp [RedisDriver.heartBeatRun, ih]

theorem heartBeatStep_terminated (rd : RedisDriver) (st : HBState)
    (ev : HBEvent) (h : st.terminated = true) : rd.heartBeatStep st ev = st := by
  simp [RedisDriver.heartBeatStep, h]

theorem heartBeatRun_terminated (rd : RedisDriver) (st : HBState)
    (evs : List HBEvent) (h : st.terminated = true) :
    rd.heartBeatRun st evs = st := by
  induction evs with
  | nil => rfl
  | cons ev l ih => simp [RedisDriver.heartBeatRun, heartBeatStep_terminated rd st ev h, ih]

theorem heartBeatStep_tick_terminated (rd : RedisDriver) (st : HBState)
    (r : Option Err) (h : st.terminated = false) :
    (rd.heartBeatStep st (HBEvent.tick r)).terminated = false := by
  cases r <;> simp [RedisDriver.heartBeatStep, h, RedisDriver.registerServiceNode]

theorem heartBeatRun_ticks_terminated (rd : RedisDriver) (st : HBState)
    (evs : List HBEvent) (h : st.terminated = false)
    (hev : ∀ ev ∈ evs, ∃ r, ev = HBEvent.tick r) :
    (rd.heartBeatRun st evs).terminated = false := by
  induction evs generalizing st with
  | nil => exact h
  | cons ev l ih =>
    obtain ⟨r, hr⟩ := hev ev (by simp)
    subst hr
    exact ih (rd.heartBeatStep st (HBEvent.tick r))
      (heartBeatStep_tick_terminated rd st r h)
      (fun e he => hev e (by simp [he]))

/-! ## Concrete fixtures for the closed theorems -/

/-- A second concrete context token (used to show ctx-independence). -/
def demoCtx2 : GoContext := ⟨1⟩

/-- A concrete running driver: `demoDriver` after one successful `Start`. -/
def runningDriver : RedisDriver := (demoDriver.Start demoCtx emptyStore none).rd

/-- A concrete heartbeat-loop state over an empty store with nothing logged. -/
def demoHB : HBState :=
  { store := emptyStore, logs := [], calls := [], terminated := false }

/-- A scan iterator whose underlying store scan yields one key and then fails
partway through the iteration. -/
def failingScanIter : ScanIterator :=
  { pending := ["svc:node-1"], failAfter := some "redis: connection refused",
    recorded := none, val := "" }

/-! ## Claim theorems -/

/-- C1 (counterexample): after `Start` fails its synchronous registration, the
lifecycle transition is NOT rolled back — the driver remains observably
started, so a later `Start` without an intervening `Stop` is rejected as
already started, contrary to the claim. -/
theorem c1_rollback_counterexample :
    ((demoDriver.Start demoCtx emptyStore (some "redis: connection refused")).rd.Start
        demoCtx2 emptyStore none).err = some alreadyStartedErr ∧
    (demoDriver.Start demoCtx emptyStore (some "redis: connection refused")).rd.started
      = true := by
  exact ⟨rfl, rfl⟩

/-- C1 (amended): if the synchronous registration performed by `Start(ctx)`
fails, `Start` returns that error, does not write the lease key, and leaves no
background heartbeat loop running; however the lifecycle transition is not
rolled back: the started flag remains true, so a later `Start` without an
intervening `Stop` is rejected as already started. -/
theorem c1_start_registration_failure (rd : RedisDriver) (ctx ctx2 : GoContext)
    (s s2 : Store) (e : Err) (r2 : Option Err) (h : rd.started = false) :
    (rd.Start ctx s (some e)).err = some e
    ∧ (rd.Start ctx s (some e)).heartbeatLaunched = false
    ∧ (rd.Start ctx s (some e)).store = s
    ∧ (rd.Start ctx s (some e)).rd.started = true
    ∧ ((rd.Start ctx s (some e)).rd.Start ctx2 s2 r2).err = some alreadyStartedErr := by
  simp [RedisDriver.Start, RedisDriver.registerServiceNode, h]

/-- Witness for C1 (amended) at a concrete stopped driver. -/
theorem c1_start_registration_failure_witness :
    demoDriver.started = false
    ∧ (demoDriver.Start demoCtx emptyStore (some "boom")).err = some "boom"
    ∧ (demoDriver.Start demoCtx emptyStore (some "boom")).heartbeatLaunched = false
    ∧ ((demoDriver.Start demoCtx emptyStore (some "boom")).rd.Start demoCtx2
         emptyStore none).err = some alreadyStartedErr := by
  have h := c1_start_registration_failure demoDriver demoCtx demoCtx2 emptyStore
    emptyStore "boom" none (by decide)
  exact ⟨by decide, h.1, h.2.1, h.2.2.2.2⟩

/-- C2: a second `Start` on a running driver returns the AlreadyStarted error,
returns the driver completely unchanged (same nodeID, timeout, runtime
context and started flag), and does not reach the `go heartBeat()` statement. -/
theorem c2_second_start_rejected (rd : RedisDriver) (ctx : GoContext) (s : Store)
    (regErr : Option Err) (h : rd.started = true) :
    rd.Start ctx s regErr
      = { rd := rd, store := s, err := some alreadyStartedErr,
          heartbeatLaunched := false, logs := [] } := by
  simp [RedisDriver.Start, h]

/-- Witness for C2 at a concrete running driver. -/
theorem c2_second_start_rejected_witness :
    runningDriver.started = true
    ∧ runningDriver.Start demoCtx2 emptyStore none
        = { rd := runningDriver, store := emptyStore, err := some alreadyStartedErr,
            heartbeatLaunched := false, logs := [] } :=
  ⟨by decide, c2_second_start_rejected runningDriver demoCtx2 emptyStore none (by decide)⟩

/-- C3 (code bug): when the underlying store scan fails partway through the
iteration — here after yielding one key — the `for iter.Next` loop of `scan`
simply exits (go-redis `Next` returns false on error) and the in-loop
`iter.Err()` check can never observe the failure; no check follows the loop,
so `GetNodes` returns the silently truncated partial list with a nil error
instead of surfacing the mid-scan error. -/
theorem c3_scan_swallows_mid_scan_error :
    demoDriver.GetNodes demoCtx failingScanIter = (["svc:node-1"], none) := rfl

/-- C4 (code bug): `Stop` on a driver that has never been started finds
`runtimeCancel` nil; the unguarded call `rd.runtimeCancel()` is a nil function
call and panics instead of completing and returning normally. -/
theorem c4_stop_before_start_panics :
    NewDriver.Stop demoCtx = GoOutcome.panics := rfl

/-- C8: a fresh driver defaults to a 5-second lease TTL and the standard
logger; a Timeout option replaces only the TTL, a Logger option replaces only
the diagnostic sink, any other option kind leaves the driver unchanged, and
`WithOption` always reports a nil error. -/
theorem c8_defaults_and_option_dispatch (rd : RedisDriver) (t : Nat)
    (l : Logger) (tag : Nat) :
    NewDriver.timeout = 5 * timeSecond
    ∧ NewDriver.logger = Logger.std
    ∧ rd.WithOption (CommonsOption.timeoutOpt t) = ({ rd with timeout := t }, none)
    ∧ rd.WithOption (CommonsOption.loggerOpt l) = ({ rd with logger := l }, none)
    ∧ rd.WithOption (CommonsOption.unknownOpt tag) = (rd, none) :=
  ⟨rfl, rfl, rfl, rfl, rfl⟩

/-- C9 (counterexample): `Stop` does not return a nil error for EVERY driver
state — on a freshly initialised driver whose runtime cancellation handle is
still nil, `Stop` does not return at all: it panics. -/
theorem c9_stop_counterexample :
    (NewDriver.Init "svc" "svc:node-9" []).Stop demoCtx2 = GoOutcome.panics := rfl

/-- C9 (amended): for every driver whose runtime cancellation handle is
non-nil, `Stop` returns a nil error (it never reports a failure), merely
clearing the started flag, and the context argument has no effect on the
result. -/
theorem c9_stop_nil_error_ignores_ctx (rd : RedisDriver) (ctx ctx2 : GoContext)
    (h : rd.runtimeCancel.isSome = true) :
    rd.Stop ctx = GoOutcome.ok ({ rd with started := false }, none)
    ∧ rd.Stop ctx = rd.Stop ctx2 := by
  obtain ⟨u, hu⟩ := Option.isSome_iff_exists.mp h
  constructor <;> simp [RedisDriver.Stop, hu]

/-- Witness for C9 (amended) at a concrete running driver. -/
theorem c9_stop_nil_error_ignores_ctx_witness :
    runningDriver.runtimeCancel.isSome = true
    ∧ runningDriver.Stop demoCtx
        = GoOutcome.ok ({ runningDriver with started := false }, none) :=
  ⟨by decide, (c9_stop_nil_error_ignores_ctx runningDriver demoCtx demoCtx2 (by decide)).1⟩

/-- C5: every registration/renewal write (`registerServiceNode`, used by both
the synchronous registration in `Start` and the heartbeat renewal) stores
exactly one key-value pair — key and value both the node identity, TTL equal
to the configured timeout — leaving every other key untouched; hence after a
successful `Start` the lease key for this node exists in the store with a TTL
equal to (so at most) the configured timeout. -/
theorem c5_lease_write_shape (rd : RedisDriver) (ctx : GoContext) (s : Store)
    (k : String) (hk : k ≠ rd.nodeID) (h : rd.started = false) :
    (rd.registerServiceNode s none).1.get rd.nodeID = some (rd.nodeID, rd.timeout)
    ∧ (rd.registerServiceNode s none).1.get k = s.get k
    ∧ (rd.registerServiceNode s none).2 = none
    ∧ (rd.Start ctx s none).err = none
    ∧ (rd.Start ctx s none).store.get rd.nodeID = some (rd.nodeID, rd.timeout)
    ∧ rd.timeout ≤ rd.timeout := by
  refine ⟨?_, ?_, rfl, ?_, ?_, le_refl _⟩
  · simp [RedisDriver.registerServiceNode, Store.get_setEx_self]
  · simp [RedisDriver.registerServiceNode, Store.get_setEx_other s _ _ _ k hk]
  · simp [RedisDriver.Start, RedisDriver.registerServiceNode, h]
  · simp [RedisDriver.Start, RedisDriver.registerServiceNode, h,
      Store.get_setEx_self]

/-- Witness for C5 at a concrete driver, store and unrelated key. -/
theorem c5_lease_write_shape_witness :
    "other" ≠ demoDriver.nodeID
    ∧ demoDriver.started = false
    ∧ (demoDriver.Start demoCtx emptyStore none).store.get demoDriver.nodeID
        = some (demoDriver.nodeID, demoDriver.timeout) :=
  ⟨by decide, by decide,
    (c5_lease_write_shape demoDriver demoCtx emptyStore "other" (by decide)
      (by decide)).2.2.2.2.1⟩

/-- C6: the renewal ticker of the heartbeat loop fires every `timeout / 2`;
on a tick whose renewal fails the loop logs the error and keeps running (it is
not terminated, and the very next successful tick re-writes the lease), and a
failed renewal changes neither the store nor terminates the loop — no error is
ever returned to any caller (a step yields only a successor state). -/
theorem c6_heartbeat_renewal_non_fatal (rd : RedisDriver) (st : HBState)
    (e : Err) (h : st.terminated = false) :
    rd.heartBeatInterval = rd.timeout / 2
    ∧ (rd.heartBeatStep st (HBEvent.tick (some e))).terminated = false
    ∧ (rd.heartBeatStep st (HBEvent.tick (some e))).logs
        = st.logs ++ ["register service node error " ++ e]
    ∧ (rd.heartBeatStep st (HBEvent.tick (some e))).store = st.store
    ∧ (rd.heartBeatRun st [HBEvent.tick (some e), HBEvent.tick none]).store.get
        rd.nodeID = some (rd.nodeID, rd.timeout) := by
  refine ⟨rfl, ?_, ?_, ?_, ?_⟩
  · simp [RedisDriver.heartBeatStep, h, RedisDriver.registerServiceNode]
  · simp [RedisDriver.heartBeatStep, h, RedisDriver.registerServiceNode]
  · simp [RedisDriver.heartBeatStep, h, RedisDriver.registerServiceNode]
  · simp [RedisDriver.heartBeatRun, RedisDriver.heartBeatStep, h,
      RedisDriver.registerServiceNode, Store.get_setEx_self]

/-- Witness for C6 at a concrete driver and loop state. -/
theorem c6_heartbeat_renewal_non_fatal_witness :
    demoHB.terminated = false
    ∧ demoDriver.heartBeatInterval = demoDriver.timeout / 2
    ∧ (demoDriver.heartBeatStep demoHB (HBEvent.tick (some "boom"))).terminated
        = false
    ∧ (demoDriver.heartBeatRun demoHB
        [HBEvent.tick (some "boom"), HBEvent.tick none]).store.get
          demoDriver.nodeID = some (demoDriver.nodeID, demoDriver.timeout) := by
  have hc := c6_heartbeat_renewal_non_fatal demoDriver demoHB "boom" (by decide)
  exact ⟨by decide, hc.1, hc.2.1, hc.2.2.2.2⟩

/-- C7: once the heartbeat loop observes cancellation of the runtime context
it issues exactly one best-effort `Del` of the lease key, logs a deletion
error (if any) without returning it, and terminates permanently: every event
after the cancellation is ignored, so no further renewal write is ever
attempted by that loop. -/
theorem c7_cancellation_single_deregistration (rd : RedisDriver) (st : HBState)
    (pre post : List HBEvent) (delErr : Option Err)
    (h : st.terminated = false)
    (hpre : ∀ ev ∈ pre, ∃ r, ev = HBEvent.tick r) :
    rd.heartBeatRun st (pre ++ HBEvent.cancelled delErr :: post)
      = rd.heartBeatStep (rd.heartBeatRun st pre) (HBEvent.cancelled delErr)
    ∧ (rd.heartBeatStep (rd.heartBeatRun st pre)
        (HBEvent.cancelled delErr)).terminated = true
    ∧ (rd.heartBeatStep (rd.heartBeatRun st pre) (HBEvent.cancelled delErr)).calls
        = (rd.heartBeatRun st pre).calls
          ++ [StoreCall.delCall [rd.nodeID, rd.nodeID]]
    ∧ (∀ e, delErr = some e →
        (rd.heartBeatStep (rd.heartBeatRun st pre) (HBEvent.cancelled delErr)).logs
          = (rd.heartBeatRun st pre).logs
            ++ ["unregister service node error " ++ e]) := by
  have hterm : (rd.heartBeatRun st pre).terminated = false :=
    heartBeatRun_ticks_terminated rd st pre h hpre
  have hstep : (rd.heartBeatStep (rd.heartBeatRun st pre)
      (HBEvent.cancelled delErr)).terminated = true := by
    cases delErr <;> simp [RedisDriver.heartBeatStep, hterm]
  refine ⟨?_, hstep, ?_, ?_⟩
  · calc rd.heartBeatRun st (pre ++ HBEvent.cancelled delErr :: post)
        = rd.heartBeatRun (rd.heartBeatRun st pre)
            (HBEvent.cancelled delErr :: post) :=
          heartBeatRun_append rd st pre (HBEvent.cancelled delErr :: post)
      _ = rd.heartBeatRun (rd.heartBeatStep (rd.heartBeatRun st pre)
            (HBEvent.cancelled delErr)) post := rfl
      _ = rd.heartBeatStep (rd.heartBeatRun st pre)
            (HBEvent.cancelled delErr) :=
          heartBeatRun_terminated rd _ post hstep
  · cases delErr <;> simp [RedisDriver.heartBeatStep, hterm]
  · intro e he
    subst he
    simp [RedisDriver.heartBeatStep, hterm]

/-- Witness for C7 at a concrete driver, loop state and event trace. -/
theorem c7_cancellation_single_deregistration_witness :
    demoHB.terminated = false
    ∧ demoDriver.heartBeatRun demoHB
        ([HBEvent.tick none] ++ HBEvent.cancelled (some "boom")
          :: [HBEvent.tick none])
      = demoDriver.heartBeatStep (demoDriver.heartBeatRun demoHB [HBEvent.tick none])
          (HBEvent.cancelled (some "boom"))
    ∧ (demoDriver.heartBeatStep
        (demoDriver.heartBeatRun demoHB [HBEvent.tick none])
        (HBEvent.cancelled (some "boom"))).calls
      = (demoDriver.heartBeatRun demoHB [HBEvent.tick none]).calls
        ++ [StoreCall.delCall [demoDriver.nodeID, demoDriver.nodeID]]
    ∧ (demoDriver.heartBeatStep
        (demoDriver.heartBeatRun demoHB [HBEvent.tick none])
        (HBEvent.cancelled (some "boom"))).logs
      = (demoDriver.heartBeatRun demoHB [HBEvent.tick none]).logs
        ++ ["unregister service node error " ++ "boom"] := by
  have hc := c7_cancellation_single_deregistration demoDriver demoHB
    [HBEvent.tick none] [HBEvent.tick none] (some "boom") (by decide)
    (by intro ev hev; simp at hev; exact ⟨none, hev⟩)
  exact ⟨by decide, hc.1, hc.2.2.1, hc.2.2.2 "boom" rfl⟩


/-- `WithOption` never touches the lifecycle fields: the started flag and the
runtime cancellation handle survive any option application. -/
theorem withOption_preserves_lifecycle (rd : RedisDriver) (opt : CommonsOption) :
    (rd.WithOption opt).1.started = rd.started
    ∧ (rd.WithOption opt).1.runtimeCancel = rd.runtimeCancel := by
  cases opt <;> exact ⟨rfl, rfl⟩

/-- Folding option application over a list preserves the lifecycle fields. -/
theorem foldl_withOption_preserves_lifecycle (opts : List CommonsOption)
    (rd : RedisDriver) :
    (opts.foldl (fun d opt => (d.WithOption opt).1) rd).started = rd.started
    ∧ (opts.foldl (fun d opt => (d.WithOption opt).1) rd).runtimeCancel
        = rd.runtimeCancel := by
  induction opts generalizing rd with
  | nil => exact ⟨rfl, rfl⟩
  | cons o os ih =>
    constructor
    · rw [List.foldl_cons, (ih _).1, (withOption_preserves_lifecycle rd o).1]
    · rw [List.foldl_cons, (ih _).2, (withOption_preserves_lifecycle rd o).2]

/-- A started driver always carries a runtime cancellation handle: the
property holds of a fresh driver and is preserved by `Init`, `Start` and a
returning `Stop`, so it holds of every reachable driver state (this justifies
the hypothesis of the C10 theorem below). -/
theorem started_implies_handle_invariant :
    (NewDriver.started = true → NewDriver.runtimeCancel.isSome = true)
    ∧ (∀ rd : RedisDriver, ∀ n i : String, ∀ opts : List CommonsOption,
        (rd.started = true → rd.runtimeCancel.isSome = true) →
        ((rd.Init n i opts).started = true →
          (rd.Init n i opts).runtimeCancel.isSome = true))
    ∧ (∀ rd : RedisDriver, ∀ ctx : GoContext, ∀ s : Store, ∀ regErr : Option Err,
        (rd.started = true → rd.runtimeCancel.isSome = true) →
        ((rd.Start ctx s regErr).rd.started = true →
          (rd.Start ctx s regErr).rd.runtimeCancel.isSome = true))
    ∧ (∀ rd : RedisDriver, ∀ ctx : GoContext, ∀ rd2 : RedisDriver,
        ∀ e : Option Err,
        (rd.started = true → rd.runtimeCancel.isSome = true) →
        rd.Stop ctx = GoOutcome.ok (rd2, e) →
        (rd2.started = true → rd2.runtimeCancel.isSome = true)) := by
  refine ⟨fun h => by simp [NewDriver] at h, ?_, ?_, ?_⟩
  · intro rd n i opts hInv h
    have hp := foldl_withOption_preserves_lifecycle opts
      { rd with serviceName := n, nodeID := i }
    rw [RedisDriver.Init] at h ⊢
    rw [hp.2]
    rw [hp.1] at h
    exact hInv h
  · intro rd ctx s regErr hInv
    by_cases hs : rd.started = true
    · simp only [RedisDriver.Start, hs, if_true]
      exact fun _ => hInv hs
    · cases regErr <;>
        simp [RedisDriver.Start, hs, RedisDriver.registerServiceNode]
  · intro rd ctx rd2 e hInv hstop
    cases hc : rd.runtimeCancel with
    | none => simp [RedisDriver.Stop, hc] at hstop
    | some u =>
      simp only [RedisDriver.Stop, hc, GoOutcome.ok.injEq, Prod.mk.injEq] at hstop
      intro h2
      rw [← hstop.1] at h2
      simp at h2

/-- C10: after any return from `Start` — the already-started rejection, a
registration-error return, or a successful return — the runtime cancellation
handle is non-nil (given the reachable-state invariant that a started driver
carries a handle, proved in `started_implies_handle_invariant`); hence a
subsequent `Stop` finds a valid cancel function, returns without panicking and
resets the started flag to false, after which a fresh `Start` passes the
already-started guard: it reports no error and launches the heartbeat loop. -/
theorem c10_start_stop_start_cycle (rd : RedisDriver) (ctx ctx2 ctx3 : GoContext)
    (s s2 : Store) (regErr : Option Err)
    (hInv : rd.started = true → rd.runtimeCancel.isSome = true) :
    (rd.Start ctx s regErr).rd.runtimeCancel.isSome = true
    ∧ (rd.Start ctx s regErr).rd.Stop ctx2
        = GoOutcome.ok
            ({ (rd.Start ctx s regErr).rd with started := false }, none)
    ∧ ({ (rd.Start ctx s regErr).rd with started := false } : RedisDriver).started
        = false
    ∧ (({ (rd.Start ctx s regErr).rd with started := false } : RedisDriver).Start
        ctx3 s2 none).err = none
    ∧ (({ (rd.Start ctx s regErr).rd with started := false } : RedisDriver).Start
        ctx3 s2 none).heartbeatLaunched = true := by
  have hhandle : (rd.Start ctx s regErr).rd.runtimeCancel.isSome = true := by
    by_cases hs : rd.started = true
    · simp only [RedisDriver.Start, hs, if_true]
      exact hInv hs
    · cases regErr <;>
        simp [RedisDriver.Start, hs, RedisDriver.registerServiceNode]
  obtain ⟨u, hu⟩ := Option.isSome_iff_exists.mp hhandle
  refine ⟨hhandle, ?_, rfl, ?_, ?_⟩
  · simp [RedisDriver.Stop, hu]
  · simp [RedisDriver.Start, RedisDriver.registerServiceNode]
  · simp [RedisDriver.Start, RedisDriver.registerServiceNode]

/-- Witness for C10 at a concrete stopped driver. -/
theorem c10_start_stop_start_cycle_witness :
    (demoDriver.started = true → demoDriver.runtimeCancel.isSome = true)
    ∧ (demoDriver.Start demoCtx emptyStore none).rd.runtimeCancel.isSome = true
    ∧ (demoDriver.Start demoCtx emptyStore none).rd.Stop demoCtx2
        = GoOutcome.ok
            ({ (demoDriver.Start demoCtx emptyStore none).rd with
                started := false }, none)
    ∧ (({ (demoDriver.Start demoCtx emptyStore none).rd with
          started := false } : RedisDriver).Start demoCtx emptyStore none).err
        = none := by
  have hc := c10_start_stop_start_cycle demoDriver demoCtx demoCtx2 demoCtx
    emptyStore emptyStore none (by decide)
  exact ⟨by decide, hc.1, hc.2.1, hc.2.2.2.1⟩
